import Mathlib

/-!
Verification development for the searching-agent repository.

The development shallowly embeds the Python source:

* `src/utils/str2dir.py` — cleaning, JSON-span selection, parsing and repair
  (`structure_text_to_json_list`), with a small model of Python values
  (`PyJson`) and of `json.loads`.
* `src/searchers/combined_web_searcher.py` — `CombinedWebSearcher.search`.
* `src/llm/llm_processor.py` — token estimation, chunking and
  `process_large_context`.
* `src/agent_graph.py` — the LangGraph pipeline: graph state, the three
  nodes, the decision function and the bounded retry loop.

External collaborators (the language model, the web-search providers and the
`tiktoken` tokenizer) are abstracted as response functions quantified over in
the theorems.  Prompt templates from the repository's `prompts/templates.py`
(not present in the sources) are likewise abstracted as formatting functions;
the one template defined inside `src/llm/llm_processor.py`
(`CHUNK_PROCESSOR_PROMPT`) is embedded literally.
-/

/-! ## Character classes and Python string helpers -/

/-- ASCII punctuation, exactly Python's `string.punctuation`
(the four ASCII ranges 33–47, 58–64, 91–96, 123–126). -/
def isAsciiPunct (c : Char) : Bool :=
  (33 ≤ c.toNat && c.toNat ≤ 47) || (58 ≤ c.toNat && c.toNat ≤ 64) ||
  (91 ≤ c.toNat && c.toNat ≤ 96) || (123 ≤ c.toNat && c.toNat ≤ 126)

/-- Python's `\w` with `re.UNICODE`: ASCII alphanumerics, the underscore, and
Unicode letters and digits.  The Unicode word classes are modelled for the
scripts the repository's data exercises (Latin incl. Latin-1/Latin Extended,
and Cyrillic); characters such as newlines, em dashes and emoji are outside
`\w` both in Python and here. -/
def isWordChar (c : Char) : Bool :=
  c.isAlphanum || c = '_' ||
  (0xC0 ≤ c.toNat && c.toNat ≤ 0x24F && c.toNat ≠ 0xD7 && c.toNat ≠ 0xF7) ||
  (0x400 ≤ c.toNat && c.toNat ≤ 0x4FF)

/-- A character kept by `clean_string_except_letters_digits_spaces_punctuation`:
word characters, the space, the tab and ASCII punctuation
(the regex deletes the complement class). -/
def allowedChar (c : Char) : Bool :=
  isWordChar c || c = ' ' || c = '\t' || isAsciiPunct c

/-- `re.sub(r'[^\w \t{punct}]', '', text)` on the character list. -/
def cleanChars (cs : List Char) : List Char :=
  cs.filter allowedChar

/-- `clean_string_except_letters_digits_spaces_punctuation` from
`src/utils/str2dir.py`. -/
def clean_string_except_letters_digits_spaces_punctuation (s : String) : String :=
  ⟨cleanChars s.data⟩

/-- Python `str` whitespace (the ASCII part, which is all that survives the
cleaning step wherever `strip` follows it). -/
def isPySpace (c : Char) : Bool :=
  c = ' ' || c = '\t' || c = '\n' || c = '\r' || c = '\x0b' || c = '\x0c'

/-- Python `str.strip()` on a character list. -/
def pyStripChars (cs : List Char) : List Char :=
  ((cs.dropWhile isPySpace).reverse.dropWhile isPySpace).reverse

/-- Python `str.strip()`. -/
def pyStrip (s : String) : String :=
  ⟨pyStripChars s.data⟩

/-- Python `str.split('\n')` (keeps empty pieces, like the original). -/
def pySplitNl (cs : List Char) : List (List Char) :=
  match cs with
  | [] => [[]]
  | c :: rest =>
    match pySplitNl rest with
    | [] => [[c]]
    | g :: gs => if c = '\n' then [] :: g :: gs else (c :: g) :: gs

/-- Python `sep.join(xs)`. -/
def joinSep (sep : String) : List String → String
  | [] => ""
  | [x] => x
  | x :: y :: xs => x ++ sep ++ joinSep sep (y :: xs)

/-! ## A model of Python values produced by `json.loads`

Integers parse to `num`; non-integral numeric literals keep their lexeme in
`fnum` (their numeric value is never consumed by the repository's code). -/

inductive PyJson where
  | null : PyJson
  | bool : Bool → PyJson
  | num : Int → PyJson
  | fnum : String → PyJson
  | str : String → PyJson
  | arr : List PyJson → PyJson
  | obj : List (String × PyJson) → PyJson
deriving Repr

/-- A Python dict with string keys in insertion order (the shape every record
in this code base has). -/
abbrev PyObj := List (String × PyJson)

/-- Python dict lookup (`d.get(k)` returning `None` when absent).  Keys are
unique by construction (`objInsert` replaces), so first match suffices. -/
def objGet : PyObj → String → Option PyJson
  | [], _ => none
  | (k, v) :: rest, key => if k = key then some v else objGet rest key

/-- Python `d[k] = v`: replace in place if the key exists, else append. -/
def objInsert : PyObj → String → PyJson → PyObj
  | [], key, v => [(key, v)]
  | (k, w) :: rest, key, v =>
    if k = key then (key, v) :: rest else (k, w) :: objInsert rest key v

mutual
/-- Structural equality of Python values as used by `in` on a set of URLs.
(Python's cross-type numeric equalities such as `True == 1` are not modelled;
the values compared in this code base are strings.) -/
def pyEq : PyJson → PyJson → Bool
  | .null, .null => true
  | .bool a, .bool b => a == b
  | .num a, .num b => a == b
  | .fnum a, .fnum b => a == b
  | .str a, .str b => a == b
  | .arr xs, .arr ys => pyEqList xs ys
  | .obj xs, .obj ys => pyEqObj xs ys
  | _, _ => false

def pyEqList : List PyJson → List PyJson → Bool
  | [], [] => true
  | x :: xs, y :: ys => pyEq x y && pyEqList xs ys
  | _, _ => false

def pyEqObj : List (String × PyJson) → List (String × PyJson) → Bool
  | [], [] => true
  | (k, v) :: xs, (l, w) :: ys => k == l && pyEq v w && pyEqObj xs ys
  | _, _ => false
end

/-- Python truthiness of a value (`if url and ...`).  A non-integral numeric
literal is treated as truthy (a zero float never occurs as a URL value). -/
def pyTruthy : PyJson → Bool
  | .null => false
  | .bool b => b
  | .num n => n != 0
  | .fnum _ => true
  | .str s => s != ""
  | .arr xs => !xs.isEmpty
  | .obj xs => !xs.isEmpty

mutual
/-- Python `str(v)` for the values interpolated into the evidence block.
Exact for the scalar cases; containers get a `repr`-like rendering whose
precise text nothing downstream inspects. -/
def pyStr : PyJson → String
  | .null => "None"
  | .bool b => if b then "True" else "False"
  | .num n => toString n
  | .fnum s => s
  | .str s => s
  | .arr xs => "[" ++ pyStrList xs ++ "]"
  | .obj xs => "\x7b" ++ pyStrObj xs ++ "\x7d"

def pyStrList : List PyJson → String
  | [] => ""
  | [x] => pyStr x
  | x :: y :: xs => pyStr x ++ ", " ++ pyStrList (y :: xs)

def pyStrObj : List (String × PyJson) → String
  | [] => ""
  | [(k, v)] => "\x27" ++ k ++ "\x27: " ++ pyStr v
  | (k, v) :: p :: xs => "\x27" ++ k ++ "\x27: " ++ pyStr v ++ ", " ++ pyStrObj (p :: xs)
end

/-! ## A model of Python `json.loads` -/

/-- Skip JSON whitespace. -/
def skipWs : List Char → List Char
  | c :: cs => if c = ' ' || c = '\t' || c = '\n' || c = '\r' then skipWs cs else c :: cs
  | [] => []

/-- Hex digit value. -/
def hexVal (c : Char) : Option Nat :=
  if '0' ≤ c && c ≤ '9' then some (c.toNat - 48)
  else if 'a' ≤ c && c ≤ 'f' then some (c.toNat - 87)
  else if 'A' ≤ c && c ≤ 'F' then some (c.toNat - 70)
  else none

/-- Body of a JSON string after the opening quote, with the escape sequences
Python's strict decoder accepts; raw control characters are an error, as in
Python's default (strict) mode. -/
def parseStringBody (acc : List Char) : List Char → Except Unit (String × List Char)
  | [] => .error ()
  | '"' :: rest => .ok (⟨acc.reverse⟩, rest)
  | '\\' :: 'u' :: a :: b :: c :: d :: rest =>
    match hexVal a, hexVal b, hexVal c, hexVal d with
    | some x, some y, some z, some w =>
      let code := ((x * 16 + y) * 16 + z) * 16 + w
      if 0xD800 ≤ code && code ≤ 0xDFFF then .error ()
      else parseStringBody (Char.ofNat code :: acc) rest
    | _, _, _, _ => .error ()
  | '\\' :: e :: rest =>
    if e = '"' then parseStringBody ('"' :: acc) rest
    else if e = '\\' then parseStringBody ('\\' :: acc) rest
    else if e = '/' then parseStringBody ('/' :: acc) rest
    else if e = 'b' then parseStringBody ('\x08' :: acc) rest
    else if e = 'f' then parseStringBody ('\x0c' :: acc) rest
    else if e = 'n' then parseStringBody ('\n' :: acc) rest
    else if e = 'r' then parseStringBody ('\r' :: acc) rest
    else if e = 't' then parseStringBody ('\t' :: acc) rest
    else .error ()
  | c :: rest =>
    if c.toNat < 0x20 then .error () else parseStringBody (c :: acc) rest

/-- Longest prefix of decimal digits. -/
def takeDigits (cs : List Char) : List Char × List Char :=
  (cs.takeWhile Char.isDigit, cs.dropWhile Char.isDigit)

/-- Digits to a natural number. -/
def digitsToNat (ds : List Char) : Nat :=
  ds.foldl (fun n c => n * 10 + (c.toNat - 48)) 0

/-- A JSON number, following the grammar Python's decoder uses: optional
minus, an integer part without leading zeros, optional fraction and exponent.
Integral literals become `num`; anything with a fraction or exponent keeps its
lexeme as `fnum`. -/
def parseNumber (cs : List Char) : Except Unit (PyJson × List Char) :=
  let (neg, cs1) := match cs with
    | '-' :: rest => (true, rest)
    | _ => (false, cs)
  match cs1 with
  | c :: _ =>
    if !c.isDigit then .error ()
    else
      let (intPart, cs2) := takeDigits cs1
      if intPart.length > 1 && intPart.headD '0' = '0' then .error ()
      else
        let (fracPart, cs3) := match cs2 with
          | '.' :: rest =>
            let (ds, r) := takeDigits rest
            if ds.isEmpty then ([], cs2) else ('.' :: ds, r)
          | _ => ([], cs2)
        if (match cs2 with | '.' :: _ => fracPart.isEmpty | _ => false) then .error ()
        else
          let (expPart, cs4) := match cs3 with
            | e :: rest =>
              if e = 'e' || e = 'E' then
                match rest with
                | s :: rest2 =>
                  if s = '+' || s = '-' then
                    let (ds, r) := takeDigits rest2
                    if ds.isEmpty then ([], cs3) else (e :: s :: ds, r)
                  else
                    let (ds, r) := takeDigits rest
                    if ds.isEmpty then ([], cs3) else (e :: ds, r)
                | [] => ([], cs3)
              else ([], cs3)
            | [] => ([], cs3)
          if (match cs3 with
              | e :: _ => (e = 'e' || e = 'E') && expPart.isEmpty
              | _ => false) then .error ()
          else if fracPart.isEmpty && expPart.isEmpty then
            let n : Int := Int.ofNat (digitsToNat intPart)
            .ok (.num (if neg then -n else n), cs2)
          else
            let lexeme := (if neg then ['-'] else []) ++ intPart ++ fracPart ++ expPart
            .ok (.fnum ⟨lexeme⟩, cs4)
  | [] => .error ()

mutual
/-- One JSON value (Python `json.loads` also accepts the extensions `NaN`,
`Infinity` and `-Infinity`). -/
def parseValue : Nat → List Char → Except Unit (PyJson × List Char)
  | 0, _ => .error ()
  | Nat.succ n, cs =>
    match skipWs cs with
    | '"' :: rest => (parseStringBody [] rest).map (fun p => (.str p.1, p.2))
    | '{' :: rest =>
      (match skipWs rest with
       | '}' :: rest2 => .ok (.obj [], rest2)
       | cs2 => parseObjBody n [] cs2)
    | '[' :: rest =>
      (match skipWs rest with
       | ']' :: rest2 => .ok (.arr [], rest2)
       | cs2 => parseArrBody n [] cs2)
    | 't' :: 'r' :: 'u' :: 'e' :: rest => .ok (.bool true, rest)
    | 'f' :: 'a' :: 'l' :: 's' :: 'e' :: rest => .ok (.bool false, rest)
    | 'n' :: 'u' :: 'l' :: 'l' :: rest => .ok (.null, rest)
    | 'N' :: 'a' :: 'N' :: rest => .ok (.fnum "nan", rest)
    | 'I' :: 'n' :: 'f' :: 'i' :: 'n' :: 'i' :: 't' :: 'y' :: rest => .ok (.fnum "inf", rest)
    | '-' :: 'I' :: 'n' :: 'f' :: 'i' :: 'n' :: 'i' :: 't' :: 'y' :: rest =>
      .ok (.fnum "-inf", rest)
    | cs2 => parseNumber cs2

/-- Elements of a non-empty array, positioned at the first element. -/
def parseArrBody : Nat → List PyJson → List Char → Except Unit (PyJson × List Char)
  | 0, _, _ => .error ()
  | Nat.succ n, acc, cs =>
    match parseValue n cs with
    | .error _ => .error ()
    | .ok (v, rest) =>
      match skipWs rest with
      | ',' :: rest2 => parseArrBody n (acc ++ [v]) rest2
      | ']' :: rest2 => .ok (.arr (acc ++ [v]), rest2)
      | _ => .error ()

/-- Members of a non-empty object, positioned at the first key. -/
def parseObjBody : Nat → PyObj → List Char → Except Unit (PyJson × List Char)
  | 0, _, _ => .error ()
  | Nat.succ n, acc, cs =>
    match skipWs cs with
    | '"' :: rest =>
      match parseStringBody [] rest with
      | .error _ => .error ()
      | .ok (key, rest2) =>
        match skipWs rest2 with
        | ':' :: rest3 =>
          match parseValue n rest3 with
          | .error _ => .error ()
          | .ok (v, rest4) =>
            match skipWs rest4 with
            | ',' :: rest5 => parseObjBody n (objInsert acc key v) rest5
            | '}' :: rest5 => .ok (.obj (objInsert acc key v), rest5)
            | _ => .error ()
        | _ => .error ()
    | _ => .error ()
end

/-- Python `json.loads` on a character list: one value, then nothing but
whitespace (otherwise the `Extra data` error). -/
def pyLoads (cs : List Char) : Except Unit PyJson :=
  match parseValue (2 * cs.length + 4) cs with
  | .error _ => .error ()
  | .ok (v, rest) =>
    match skipWs rest with
    | [] => .ok v
    | _ :: _ => .error ()

/-! ## `src/utils/str2dir.py`: `structure_text_to_json_list` -/

/-- Is this parsed value a string? (`isinstance(item, str)`). -/
def isStrVal : PyJson → Bool
  | .str _ => true
  | _ => false

/-- The string inside a `str` value. -/
def strVal : PyJson → String
  | .str s => s
  | _ => ""

/-- One value of `_process_dict_lists_to_strings`: a list whose members are
all strings becomes the single `', '`-joined string (an empty list becomes
the empty string, since `all` of an empty list is true); every other value is
kept as is. -/
def processValue (v : PyJson) : PyJson :=
  match v with
  | .arr xs => if xs.all isStrVal then .str (joinSep ", " (xs.map strVal)) else .arr xs
  | v => v

/-- `_process_dict_lists_to_strings` from `src/utils/str2dir.py`. -/
def processDictListsToStrings (o : PyObj) : PyObj :=
  o.map (fun kv => (kv.1, processValue kv.2))

/-- Python `s.find(c)` as an option (the `-1` case is `none`). -/
def listFind (cs : List Char) (c : Char) : Option Nat :=
  cs.findIdx? (· = c)

/-- Python `s.rfind(c)` as an option. -/
def listRFind (cs : List Char) (c : Char) : Option Nat :=
  match cs.reverse.findIdx? (· = c) with
  | some i => some (cs.length - 1 - i)
  | none => none

/-- Python slice `s[a : b]`. -/
def pySlice (cs : List Char) (a b : Nat) : List Char :=
  (cs.drop a).take (b - a)

/-- Span selection of `structure_text_to_json_list`: first the whole-object
span (first `'\x7b'` to last `'\x7d'`, when the latter comes strictly later),
else the whole-array span, else nothing. -/
def selectSpan (cs : List Char) : Option (List Char) :=
  let objSpan :=
    match listFind cs '{', listRFind cs '}' with
    | some i, some j => if i < j then some (pySlice cs i (j + 1)) else none
    | _, _ => none
  match objSpan with
  | some s => some s
  | none =>
    match listFind cs '[', listRFind cs ']' with
    | some i, some j => if i < j then some (pySlice cs i (j + 1)) else none
    | _, _ => none

/-- Is this parsed value a dict? -/
def isObjVal : PyJson → Bool
  | .obj _ => true
  | _ => false

/-- The fields of an `obj` value. -/
def objOf : PyJson → PyObj
  | .obj o => o
  | _ => []

/-- The per-element processing of a parsed top-level list: every element must
be a dict (otherwise the whole call returns the empty list), and each dict
passes through `_process_dict_lists_to_strings`. -/
def processParsedList (items : List PyJson) : List PyObj :=
  if items.all isObjVal then (items.map objOf).map processDictListsToStrings else []

/-- `structure_text_to_json_list` from `src/utils/str2dir.py`: clean the raw
model output, strip it, select an object- or array-bounded span, parse it, and
on a parse failure of a brace-bounded span retry once with the span wrapped in
square brackets.  Every failure path returns the empty list. -/
def structure_text_to_json_list (textInput : String) : List PyObj :=
  let cleanedInputStripped := pyStripChars (cleanChars textInput.data)
  match selectSpan cleanedInputStripped with
  | none => []
  | some jsonToParse =>
    match pyLoads jsonToParse with
    | .ok (.obj o) => [processDictListsToStrings o]
    | .ok (.arr items) => processParsedList items
    | .ok _ => []
    | .error _ =>
      match jsonToParse.head?, jsonToParse.getLast? with
      | some c1, some c2 =>
        if c1 = '{' && c2 = '}' then
          match pyLoads ('[' :: (jsonToParse ++ [']'])) with
          | .ok (.arr items) => processParsedList items
          | .ok _ => []
          | .error _ => []
        else []
      | _, _ => []

/-! ## `src/searchers/combined_web_searcher.py`: `CombinedWebSearcher`

A provider's outcome for one call is either a list of result dicts or a raised
exception (`Except.error`), which the aggregator catches and logs. -/

/-- `CombinedWebSearcher._add_if_unique`: append the item and record its URL
when the dict has a truthy `url` value not seen before. -/
def addIfUnique (item : PyObj) (st : List PyObj × List PyJson) : List PyObj × List PyJson :=
  match objGet item "url" with
  | none => st
  | some u =>
    if pyTruthy u && !(st.2.any (pyEq u)) then (st.1 ++ [item], st.2 ++ [u]) else st

/-- The inner loop over one provider's results. -/
def addAllResults (items : List PyObj) (st : List PyObj × List PyJson) :
    List PyObj × List PyJson :=
  items.foldl (fun st item => addIfUnique item st) st

/-- `CombinedWebSearcher.search`: providers in order, a raising provider
contributing nothing, URL-deduplicated accumulation. -/
def combinedSearch (providers : List (Except Unit (List PyObj))) : List PyObj :=
  (providers.foldl
    (fun st p =>
      match p with
      | .ok items => addAllResults items st
      | .error _ => st)
    ([], [])).1

/-! ## `src/llm/llm_processor.py`: `LLMProcessor` -/

/-- The processor together with its collaborators: the completion client
(`respond`, a function of the full prompt) and the tokenizer pair from
`tiktoken` (`encode`/`decode`), all abstract. -/
structure LLMProcessor where
  respond : String → String
  encode : String → List Nat
  decode : List Nat → String
  maxTokensPerChunk : Nat
  modelContextWindow : Nat

/-- `LLMProcessor._estimate_tokens`. -/
def estimateTokens (P : LLMProcessor) (text : String) : Nat :=
  (P.encode text).length

/-- The token-list slicing of `LLMProcessor._create_chunks`
(`tokens[i : i + max_tokens_per_chunk]` for `i = 0, k, 2k, ...`). -/
def chunkTokens (k : Nat) (l : List Nat) : List (List Nat) :=
  if h : l = [] ∨ k = 0 then [] else l.take k :: chunkTokens k (l.drop k)
termination_by l.length
decreasing_by
  simp only [List.length_drop]
  have hl : l ≠ [] := fun hc => h (Or.inl hc)
  have hk : k ≠ 0 := fun hc => h (Or.inr hc)
  have := List.length_pos.mpr hl
  omega

/-- `LLMProcessor._create_chunks`. -/
def createChunks (P : LLMProcessor) (text : String) : List String :=
  (chunkTokens P.maxTokensPerChunk (P.encode text)).map P.decode

/-- `CHUNK_PROCESSOR_PROMPT` from `src/llm/llm_processor.py`, with the two
`str.format` substitutions applied. -/
def chunkProcessorPrompt (query chunk : String) : String :=
  "\nИз предоставленного ниже текста извлеки и кратко перечисли только ту информацию, которая напрямую относится к запросу пользователя.\nСохраняй ключевые факты, цифры и выводы. Если в тексте нет релевантной информации, верни пустой ответ.\n\nЗапрос пользователя: \"" ++
  query ++ "\"\n\nТекст для анализа:\n---\n" ++ chunk ++ "\n---\n"

/-- The Map loop of `process_large_context`: summarize each chunk, keeping
only the truthy (non-empty) summaries, in order. -/
def relevantInfoLoop (P : LLMProcessor) (query : String) :
    List String → List String → List String
  | [], acc => acc
  | c :: cs, acc =>
    let summary := P.respond (chunkProcessorPrompt query c)
    relevantInfoLoop P query cs (if summary != "" then acc ++ [summary] else acc)

/-- The Reduce step: the summaries joined by the separator literal. -/
def combinedSummaries (P : LLMProcessor) (query searchResults : String) : String :=
  joinSep "\n\n---\n\n" (relevantInfoLoop P query (createChunks P searchResults) [])

/-- The text that `process_large_context` renders into the final prompt's
`search_results` variable: the original text on the single-shot path,
otherwise the combined summaries (the source's final budget check assigns the
same combined text on both of its branches). -/
def synthesisInput (P : LLMProcessor) (fmt : String → String → String)
    (query searchResults : String) (maxTokensForFinalAnswer : Nat) : String :=
  let searchResultsTokens := estimateTokens P searchResults
  let promptTemplateTokens := estimateTokens P (fmt query "")
  if searchResultsTokens + promptTemplateTokens <
      P.modelContextWindow - maxTokensForFinalAnswer then
    searchResults
  else
    let combined := combinedSummaries P query searchResults
    if estimateTokens P combined + promptTemplateTokens ≥
        P.modelContextWindow - maxTokensForFinalAnswer then
      combined
    else
      combined

/-- `LLMProcessor.process_large_context`: one completion call on the final
prompt built from the synthesis input. -/
def process_large_context (P : LLMProcessor) (fmt : String → String → String)
    (query searchResults : String) (maxTokensForFinalAnswer : Nat) : String :=
  P.respond (fmt query (synthesisInput P fmt query searchResults maxTokensForFinalAnswer))

/-! ## `src/agent_graph.py`: data models and graph state -/

/-- The pydantic `DataSource` model. -/
structure DataSource where
  url : String
  title : String
  fragment : String
deriving Repr, DecidableEq

/-- The pydantic `LLMAnalysis` model (`original_search_query_context`
defaults to the empty string). -/
structure LLMAnalysis where
  answer : String
  data : List DataSource
  originalSearchQueryContext : String
deriving Repr, DecidableEq

/-- A search result as handled by the pipeline: a dict whose `title`, `url`
and `content` entries are read with `.get(key, "")`, so an absent key and an
empty string coincide. -/
structure Doc where
  title : String
  url : String
  content : String
deriving Repr, DecidableEq

/-- The `GraphState` TypedDict.  In the running graph `qa_results` always
holds the raw dicts appended by the search node (state snapshots passed to
the routing function are rebuilt from the graph's channels, so the routing
function's local writes never reach the next node — which is also why the
synthesis node can keep calling `.get` on these records). -/
structure GraphState where
  originalQuery : String
  searchQueries : List String
  qaResults : List PyObj
  feedback : String
  rephrasingCount : Nat
  finalAnswer : String
deriving Repr

/-- The pipeline's external collaborators.  Each language-model call is a
response function of the data rendered into its prompt; the prompt templates
(absent `prompts/templates.py`) and the `json.dumps` rendering of the search
results are folded into these abstract functions. `searchWeb` is the
`CombinedWebSearcher` boundary: a per-query result list or a raised
exception. -/
structure Env where
  proc : LLMProcessor
  fmtFinal : String → String → String
  respondGenQueries : String → String → String
  respondCompress : String → String → String
  respondAnalyze : String → List Doc → String
  searchWeb : String → Except Unit (List Doc)
  contentTokenThreshold : Nat
  maxTokensFinalAnswer : Nat

/-! ## The graph nodes -/

/-- `generate_search_queries_node`: build the feedback clause, call the
model once, split its stripped response into stripped non-empty lines,
increment `rephrasing_count`. -/
def generate_search_queries_node (env : Env) (s : GraphState) : GraphState :=
  let feedbackPrompt :=
    if s.feedback != "" then "Учти предыдущую обратную связь: " ++ s.feedback else ""
  let response := env.respondGenQueries s.originalQuery feedbackPrompt
  let queries :=
    (((pySplitNl (pyStripChars response.data)).map
        (fun g => String.mk (pyStripChars g))).filter (fun q => q != ""))
  { s with searchQueries := queries, rephrasingCount := s.rephrasingCount + 1 }

/-- The per-document compression loop of `search_and_analyze_per_query_node`:
a document whose estimated token count exceeds the threshold has its content
replaced by the compression call's output; the rest pass through unchanged. -/
def processDocsLoop (env : Env) (q : String) : List Doc → List Doc → List Doc
  | [], acc => acc
  | d :: ds, acc =>
    let numTokens := estimateTokens env.proc d.content
    if numTokens > env.contentTokenThreshold then
      processDocsLoop env q ds (acc ++ [{ d with content := env.respondCompress q d.content }])
    else
      processDocsLoop env q ds (acc ++ [d])

/-- `processed_search_results` for one query. -/
def processedSearchResults (env : Env) (q : String) (docs : List Doc) : List Doc :=
  processDocsLoop env q docs []

/-- The per-query loop of `search_and_analyze_per_query_node`: a raising
searcher or an empty result list skips the query; otherwise compress, call
the analyzer, extract records, and append each record tagged with the
originating query.  An empty extraction also skips the query. -/
def searchLoop (env : Env) (originalQuery : String) :
    List String → List PyObj → List PyObj
  | [], acc => acc
  | q :: qs, acc =>
    match env.searchWeb q with
    | .error _ => searchLoop env originalQuery qs acc
    | .ok [] => searchLoop env originalQuery qs acc
    | .ok (d :: ds) =>
      let processed := processedSearchResults env q (d :: ds)
      let response := env.respondAnalyze originalQuery processed
      let extracted := structure_text_to_json_list response
      match extracted with
      | [] => searchLoop env originalQuery qs acc
      | _ :: _ =>
        searchLoop env originalQuery qs
          (acc ++ extracted.map
            (fun r => objInsert r "original_search_query_context" (.str q)))

/-- `search_and_analyze_per_query_node`. -/
def search_and_analyze_per_query_node (env : Env) (s : GraphState) : GraphState :=
  match s.searchQueries with
  | [] => { s with feedback := "Не удалось сгенерировать поисковые запросы." }
  | _ :: _ =>
    { s with qaResults := searchLoop env s.originalQuery s.searchQueries s.qaResults }

/-! ## The decision function -/

/-- Validation of one data source dict against the pydantic `DataSource`
model: the three required string fields (extra keys are ignored). -/
def validateDataSource : PyJson → Option DataSource
  | .obj f =>
    match objGet f "url", objGet f "title", objGet f "fragment" with
    | some (.str u), some (.str t), some (.str fr) => some ⟨u, t, fr⟩
    | _, _, _ => none
  | _ => none

/-- Validation of every element of a record's `data` list, in order; one
invalid element fails the whole record. -/
def validateDataSources : List PyJson → Option (List DataSource)
  | [] => some []
  | v :: vs =>
    match validateDataSource v with
    | some d =>
      match validateDataSources vs with
      | some ds => some (d :: ds)
      | none => none
    | none => none

/-- Validation of one raw record against the pydantic `LLMAnalysis` model:
a string `answer`, a `data` list of valid data sources, and an optional
string `original_search_query_context` (defaulting to the empty string). -/
def validateRecord (o : PyObj) : Option LLMAnalysis :=
  match objGet o "answer", objGet o "data" with
  | some (.str a), some (.arr items) =>
    match validateDataSources items with
    | some ds =>
      match objGet o "original_search_query_context" with
      | none => some ⟨a, ds, ""⟩
      | some (.str c) => some ⟨a, ds, c⟩
      | some _ => none
    | none => none
  | _, _ => none

/-- The normalization loop of `decide_next_step`: records failing validation
are skipped (the `except ValidationError: continue` branch), the rest kept in
order. -/
def normalizeQaLoop : List PyObj → List LLMAnalysis
  | [] => []
  | o :: os =>
    match validateRecord o with
    | some a => a :: normalizeQaLoop os
    | none => normalizeQaLoop os

/-- The routing outcome of the conditional edge. -/
inductive Route where
  | RETRY : Route
  | CONTINUE : Route
  | END : Route
deriving Repr, DecidableEq

/-- The feedback string assigned on the `RETRY` branch. -/
def retryFeedbackText : String :=
  "Предыдущие поисковые запросы не дали релевантных результатов. Попробуй сгенерировать запросы под другим углом, используя другие ключевые слова."

/-- `decide_next_step`: normalize, look for a meaningful record (non-blank
stripped answer and some data source with a non-blank stripped url), route
accordingly.  The second component is the feedback field of the function's
local state snapshot (assigned on `RETRY`, untouched otherwise); the snapshot
itself is discarded by the graph runner. -/
def decide_next_step (maxRetries : Nat) (s : GraphState) : Route × String :=
  let normalized := normalizeQaLoop s.qaResults
  let meaningfulQaFound := normalized.any
    (fun qa => pyStrip qa.answer != "" && qa.data.any (fun ds => pyStrip ds.url != ""))
  if meaningfulQaFound then (.CONTINUE, s.feedback)
  else if maxRetries ≤ s.rephrasingCount then (.END, s.feedback)
  else (.RETRY, retryFeedbackText)

/-! ## The synthesis node -/

/-- Iterating a `data` list as the synthesis node does: every element must be
a dict (on anything else Python raises `AttributeError` at `.get`). -/
def iterDataDicts : List PyJson → Except Unit (List PyObj)
  | [] => .ok []
  | .obj f :: rest => (iterDataDicts rest).map (fun fs => f :: fs)
  | _ :: _ => .error ()

/-- The value a record's `data` entry yields when the synthesis node iterates
it: an error models the `AttributeError`/`TypeError` the Python code raises
when the entry is not a list of dicts (a non-empty string iterates into
characters without `.get`; numbers, booleans and `None` are not iterable;
a non-empty dict iterates into its string keys).  A missing key yields the
`.get` default `[]`. -/
def dataSourcesOf (o : PyObj) : Except Unit (List PyObj) :=
  match objGet o "data" with
  | none => .ok []
  | some (.arr items) => iterDataDicts items
  | some (.str s) => if s = "" then .ok [] else .error ()
  | some (.obj f) => if f.isEmpty then .ok [] else .error ()
  | some _ => .error ()

/-- One evidence block (`--- Источник N ... ---`), with the source's own
field accesses (`.get(key, '')` under `str`). -/
def sourceBlock (n : Nat) (o : PyObj) (ds : PyObj) : String :=
  "--- Источник " ++ toString n ++ " (поисковый запрос: \x27" ++
    pyStr ((objGet o "original_search_query_context").getD (.str "")) ++ "\x27) ---\n" ++
  "Заголовок: " ++ pyStr ((objGet ds "title").getD (.str "")) ++ "\n" ++
  "Ссылка: " ++ pyStr ((objGet ds "url").getD (.str "")) ++ "\n" ++
  "Краткий ответ по этому источнику: " ++ pyStr ((objGet o "answer").getD (.str "")) ++ "\n" ++
  "Фргамент текста, на базе которого сформулирован краткий ответ: " ++
    pyStr ((objGet ds "fragment").getD (.str "")) ++ "\n\n"

/-- The inner loop over one record's data sources. -/
def sourceBlocksLoop (o : PyObj) : List PyObj → Nat → String → Nat × String
  | [], n, acc => (n, acc)
  | ds :: rest, n, acc => sourceBlocksLoop o rest (n + 1) (acc ++ sourceBlock n o ds)

/-- The evidence-building loop of `generate_final_answer_node`, propagating
the exception raised while iterating a malformed `data` value. -/
def formatEvidenceLoop : List PyObj → Nat → String → Except Unit (Nat × String)
  | [], n, acc => .ok (n, acc)
  | o :: os, n, acc =>
    match dataSourcesOf o with
    | .error _ => .error ()
    | .ok sources =>
      let r := sourceBlocksLoop o sources n acc
      formatEvidenceLoop os r.1 r.2

/-- `generate_final_answer_node`: fallback on an empty record list, fallback
on a blank evidence block, otherwise `process_large_context`; an exception
while formatting propagates out of the node (the node has no handler). -/
def generate_final_answer_node (env : Env) (s : GraphState) : Except Unit GraphState :=
  match s.qaResults with
  | [] =>
    .ok { s with finalAnswer := "Не удалось сгенерировать ответ на основе найденной информации." }
  | _ :: _ =>
    match formatEvidenceLoop s.qaResults 1 "" with
    | .error _ => .error ()
    | .ok (_, formatted) =>
      if pyStrip formatted = "" then
        .ok { s with finalAnswer := "Не удалось сгенерировать содержательный ответ." }
      else
        let answer := process_large_context env.proc env.fmtFinal s.originalQuery
          formatted env.maxTokensFinalAnswer
        .ok { s with finalAnswer := answer }

/-! ## The compiled graph: entry state, retry loop, run -/

/-- The initial `GraphState` built by `run`. -/
def initialState (query : String) : GraphState :=
  ⟨query, [], [], "", 0, ""⟩

/-- The generate → search → decide cycle, iterated while the routing function
returns `RETRY`, with fuel (each round runs the query-generation and search
nodes once).  `none` is fuel exhaustion, which `loopToDecision_isSome` below
rules out for the fuel `run` supplies. -/
def loopToDecision (env : Env) (maxRetries : Nat) :
    Nat → GraphState → Option (GraphState × Route)
  | 0, _ => none
  | Nat.succ fuel, s =>
    let s1 := generate_search_queries_node env s
    let s2 := search_and_analyze_per_query_node env s1
    match (decide_next_step maxRetries s2).1 with
    | .RETRY => loopToDecision env maxRetries fuel s2
    | .CONTINUE => some (s2, .CONTINUE)
    | .END => some (s2, .END)

/-- The final fallback of `run`: a blank `final_answer` is replaced by the
fixed apology string. -/
def finalFallback (s : GraphState) : GraphState :=
  if pyStrip s.finalAnswer = "" then
    { s with finalAnswer :=
      "К сожалению, не удалось найти релевантную информацию или сгенерировать ответ после нескольких попыток." }
  else s

/-- `LangGraphPipeline.run`: invoke the graph from the initial state and
apply the final fallback.  An exception escaping a node aborts the run
(`Except.error`); the fuel `maxRetries + 1` bounds the retry loop and is
sufficient (`loopToDecision_isSome`). -/
def runPipeline (env : Env) (maxRetries : Nat) (query : String) :
    Except Unit GraphState :=
  match loopToDecision env maxRetries (maxRetries + 1) (initialState query) with
  | none => .error ()
  | some (s, .CONTINUE) =>
    match generate_final_answer_node env s with
    | .error _ => .error ()
    | .ok fs => .ok (finalFallback fs)
  | some (s, _) => .ok (finalFallback s)

/-! ## Definitions written from the specification's words

These are not translations of the source; they state, in the claims' own
vocabulary, what the claims assert, so that the theorems can compare the two
or exhibit counterexamples. -/

/-- A record that is *meaningful* exactly as the specification words it: its
`answer` is non-empty after trimming and at least one of its `data` entries
has a non-empty `url`.  (No further well-formedness is required by these
words — contrast with `validateRecord`, which the decision step applies
first.) -/
def specMeaningfulRecord (o : PyObj) : Prop :=
  (∃ a, objGet o "answer" = some (.str a) ∧ pyStrip a ≠ "") ∧
  (∃ items, objGet o "data" = some (.arr items) ∧
    ∃ it ∈ items, ∃ f, it = PyJson.obj f ∧
      ∃ u, objGet f "url" = some (.str u) ∧ pyStrip u ≠ "")

/-- The condition under which the decision step's code actually routes to
`CONTINUE`: some record both passes the pydantic validation and is
meaningful. -/
def hasValidMeaningful (s : GraphState) : Prop :=
  ∃ o ∈ s.qaResults, ∃ a, validateRecord o = some a ∧
    pyStrip a.answer ≠ "" ∧ ∃ d ∈ a.data, pyStrip d.url ≠ ""

/-- The structural contract of the specification's Extraction Validator: a
`data` entry must be a dict carrying string `url`, `title` and `fragment`. -/
def conformsDataSource (v : PyJson) : Prop :=
  ∃ f, v = PyJson.obj f ∧
    (∃ u, objGet f "url" = some (.str u)) ∧
    (∃ t, objGet f "title" = some (.str t)) ∧
    (∃ fr, objGet f "fragment" = some (.str fr))

/-- The shape a raw record must have to survive the pydantic validation: a
string `answer`, a `data` list of conforming data sources, and an
`original_search_query_context` that is absent or a string. -/
def conformsLLMAnalysis (o : PyObj) : Prop :=
  (∃ a, objGet o "answer" = some (.str a)) ∧
  (∃ items, objGet o "data" = some (.arr items) ∧ ∀ it ∈ items, conformsDataSource it) ∧
  (objGet o "original_search_query_context" = none ∨
    ∃ c, objGet o "original_search_query_context" = some (.str c))

/-- The specification's aggregation, written directly: walk the merged items
in order, keep an item the first time its (truthy) `url` appears, drop it
otherwise; the second component is the set of URLs seen so far. -/
def specDedupAux (seen : List PyJson) : List PyObj → List PyObj × List PyJson
  | [] => ([], seen)
  | item :: rest =>
    match objGet item "url" with
    | none => specDedupAux seen rest
    | some u =>
      if pyTruthy u && !(seen.any (pyEq u)) then
        let r := specDedupAux (seen ++ [u]) rest
        (item :: r.1, r.2)
      else specDedupAux seen rest

/-- One provider's contribution: its results, or nothing if it raised. -/
def okResults : Except Unit (List PyObj) → List PyObj
  | .ok items => items
  | .error _ => []

/-- The specification-side aggregate: flatten the successful providers'
lists in provider order, then deduplicate keeping first occurrences. -/
def specAggregate (providers : List (Except Unit (List PyObj))) : List PyObj :=
  (specDedupAux [] ((providers.map okResults).flatten)).1

/-- How many aggregated items carry exactly this `url` value. -/
def countUrl (items : List PyObj) (u : PyJson) : Nat :=
  (items.filter (fun item =>
    match objGet item "url" with
    | some v => pyEq v u
    | none => false)).length

/-- The chunk summaries of the map step, as the claims describe them: the
per-chunk responses with the empty ones removed. -/
def mapSummaries (P : LLMProcessor) (query : String) (chunks : List String) : List String :=
  (chunks.map (fun c => P.respond (chunkProcessorPrompt query c))).filter (fun x => x != "")

/-! ## Concrete fixtures for the closed theorems -/

/-- A character-count tokenizer: each character is one token. -/
def tokEncode (s : String) : List Nat :=
  s.data.map Char.toNat

/-- Inverse of `tokEncode`. -/
def tokDecode (l : List Nat) : String :=
  ⟨l.map Char.ofNat⟩

/-- An environment in which the single search query succeeds with one small
document and the analyzer answers with a fixed, syntactically recoverable
record batch. -/
def c7AnalyzerOutput : String :=
  "[\x7b\"answer\": \"x\", \"data\": [\x7b\"url\": \"u\", \"title\": \"t\", \"fragment\": \"f\"\x7d]\x7d, \x7b\"answer\": \"y\", \"data\": [\"u1\", \"u2\"]\x7d]"

/-- The environment exhibiting the synthesis-time crash: the analyzer batch
contains one fully valid, meaningful record and one record whose `data` is a
list of strings (which the extractor flattens to a single string). -/
def envC7 : Env :=
  { proc := { respond := fun _ => "ans", encode := tokEncode, decode := tokDecode,
              maxTokensPerChunk := 4000, modelContextWindow := 1000000 },
    fmtFinal := fun _ sr => sr,
    respondGenQueries := fun _ _ => "q1",
    respondCompress := fun _ c => c,
    respondAnalyze := fun _ _ => c7AnalyzerOutput,
    searchWeb := fun _ => .ok [⟨"t", "u", "c"⟩],
    contentTokenThreshold := 10000,
    maxTokensFinalAnswer := 25000 }

/-- An environment whose searcher always raises: no evidence is ever
collected, every round is a no-op. -/
def envTriv : Env :=
  { envC7 with searchWeb := fun _ => .error () }

/-- The raw record of the C1 counterexample: meaningful in the
specification's words (non-blank answer, one data entry with non-blank url)
but rejected by the pydantic validation (its data entry lacks `title` and
`fragment`). -/
def c1BadRecord : PyObj :=
  [("answer", .str "x"), ("data", .arr [.obj [("url", .str "u")]])]

/-- A decision-time state holding only that record, with the retry budget
exhausted. -/
def c1BadState : GraphState :=
  ⟨"q", [], [c1BadRecord], "", 1, ""⟩

/-- A provider result whose `url` is present but empty. -/
def c4EmptyUrlItem : PyObj :=
  [("url", .str ""), ("title", .str "t"), ("content", .str "c")]

/-- A small processor for the C5 witness. -/
def c5Proc : LLMProcessor :=
  { respond := fun _ => "s", encode := tokEncode, decode := tokDecode,
    maxTokensPerChunk := 4000, modelContextWindow := 100 }

/-- A template-format function for the C5 witness. -/
def c5Fmt (query searchResults : String) : String :=
  query ++ searchResults

/-- An environment for the C6 witness: the per-document threshold is two
tokens and compression returns a fixed short string. -/
def envC6 : Env :=
  { proc := { respond := fun _ => "s", encode := tokEncode, decode := tokDecode,
              maxTokensPerChunk := 4000, modelContextWindow := 100 },
    fmtFinal := fun _ sr => sr,
    respondGenQueries := fun _ _ => "q1",
    respondCompress := fun _ _ => "Z",
    searchWeb := fun _ => .ok [],
    respondAnalyze := fun _ _ => "",
    contentTokenThreshold := 2,
    maxTokensFinalAnswer := 10 }

/-- The two documents of the C6 witness: one above, one below the
threshold. -/
def c6Docs : List Doc :=
  [⟨"t1", "u1", "abc"⟩, ⟨"t2", "u2", "a"⟩]

/-- The bare comma-joined object sequence of the extraction-repair claim. -/
def c9Input : String :=
  "\x7b\"a\":1\x7d,\x7b\"a\":2\x7d"

/-- A raw model output whose JSON string value contains a newline and an em
dash (both deleted by the cleaning step). -/
def c10Input : String :=
  "\x7b\"answer\": \"a\nb—c\", \"data\": [\x7b\"url\": \"u\", \"title\": \"t\", \"fragment\": \"f\"\x7d]\x7d"

/-- The record the extractor returns for `c10Input`. -/
def c10Record : PyObj :=
  [("answer", .str "abc"),
   ("data", .arr [.obj [("url", .str "u"), ("title", .str "t"), ("fragment", .str "f")]])]

/-- A raw model output parsing to a record with neither `answer` nor
`data`. -/
def c8Input : String :=
  "\x7b\"x\": 1\x7d"

/-! ## Supporting lemmas -/

theorem pyJson_sizeOf_pos (a : PyJson) : 1 ≤ sizeOf a := by
  cases a <;> simp_arith

/-- `pyEq` (and its list companions) decide propositional equality. -/
theorem pyEq_all (n : Nat) :
    (∀ a b : PyJson, sizeOf a ≤ n → (pyEq a b = true ↔ a = b)) ∧
    (∀ xs ys : List PyJson, sizeOf xs ≤ n → (pyEqList xs ys = true ↔ xs = ys)) ∧
    (∀ xs ys : List (String × PyJson), sizeOf xs ≤ n → (pyEqObj xs ys = true ↔ xs = ys)) := by
  induction n with
  | zero =>
    refine ⟨fun a b h => absurd h ?_, fun xs ys h => absurd h ?_, fun xs ys h => absurd h ?_⟩
    · have := pyJson_sizeOf_pos a; omega
    · cases xs <;> simp_arith
    · cases xs <;> simp_arith
  | succ n ih =>
    refine ⟨fun a b ha => ?_, fun xs ys hxs => ?_, fun xs ys hxs => ?_⟩
    · cases a <;> cases b <;> simp_all [pyEq]
      case arr.arr xs ys =>
        exact ih.2.1 xs ys (by simp_arith at ha; omega)
      case obj.obj xs ys =>
        exact ih.2.2 xs ys (by simp_arith at ha; omega)
    · cases xs with
      | nil => cases ys <;> simp [pyEqList]
      | cons x xs =>
        cases ys with
        | nil => simp [pyEqList]
        | cons y ys =>
          have h1 : sizeOf x ≤ n := by simp_arith at hxs; omega
          have h2 : sizeOf xs ≤ n := by
            have := pyJson_sizeOf_pos x; simp_arith at hxs; omega
          simp [pyEqList, Bool.and_eq_true, ih.1 x y h1, ih.2.1 xs ys h2]
    · cases xs with
      | nil => cases ys <;> simp [pyEqObj]
      | cons x xs =>
        cases ys with
        | nil => simp [pyEqObj]
        | cons y ys =>
          obtain ⟨k, v⟩ := x
          obtain ⟨l, w⟩ := y
          have h1 : sizeOf v ≤ n := by simp_arith at hxs; omega
          have h2 : sizeOf xs ≤ n := by
            have := pyJson_sizeOf_pos v; simp_arith at hxs; omega
          simp [pyEqObj, Bool.and_eq_true, ih.1 v w h1, ih.2.2 xs ys h2, and_assoc]

/-- Python value equality is propositional equality in this model. -/
theorem pyEq_eq (a b : PyJson) : pyEq a b = true ↔ a = b :=
  (pyEq_all (sizeOf a)).1 a b le_rfl

/-- The cleaning filter is idempotent. -/
theorem cleanChars_idem (cs : List Char) : cleanChars (cleanChars cs) = cleanChars cs := by
  simp [cleanChars, List.filter_filter]

/-- The decision step's normalization is an order-preserving filter by
validation. -/
theorem normalizeQaLoop_eq_filterMap (l : List PyObj) :
    normalizeQaLoop l = l.filterMap validateRecord := by
  induction l with
  | nil => rfl
  | cons o os ih =>
    cases h : validateRecord o <;> simp [normalizeQaLoop, List.filterMap_cons, h, ih]

/-- `validateDataSource` succeeds exactly on conforming data-source dicts. -/
theorem validateDataSource_isSome_iff (v : PyJson) :
    (validateDataSource v).isSome = true ↔ conformsDataSource v := by
  constructor
  · intro h
    cases v with
    | obj f =>
      simp only [validateDataSource] at h
      split at h
      next u t fr hu ht hf => exact ⟨f, rfl, ⟨u, hu⟩, ⟨t, ht⟩, ⟨fr, hf⟩⟩
      next => simp at h
    | null => simp [validateDataSource] at h
    | bool b => simp [validateDataSource] at h
    | num n => simp [validateDataSource] at h
    | fnum s => simp [validateDataSource] at h
    | str s => simp [validateDataSource] at h
    | arr xs => simp [validateDataSource] at h
  · rintro ⟨f, rfl, ⟨u, hu⟩, ⟨t, ht⟩, ⟨fr, hf⟩⟩
    simp [validateDataSource, hu, ht, hf]

/-- `validateDataSources` succeeds exactly when every element conforms. -/
theorem validateDataSources_isSome_iff (items : List PyJson) :
    (validateDataSources items).isSome = true ↔ ∀ it ∈ items, conformsDataSource it := by
  induction items with
  | nil => simp [validateDataSources]
  | cons v vs ih =>
    rw [validateDataSources]
    constructor
    · intro h
      rcases hv : validateDataSource v with _ | d <;> rw [hv] at h
      · simp at h
      · rcases hvs : validateDataSources vs with _ | ds <;> rw [hvs] at h
        · simp at h
        · intro it hit
          rcases List.mem_cons.mp hit with rfl | hmem
          · exact (validateDataSource_isSome_iff it).mp (by simp [hv])
          · exact (ih.mp (by simp [hvs])) it hmem
    · intro h
      have hv := (validateDataSource_isSome_iff v).mpr (h v (by simp))
      have hvs := ih.mpr (fun it hit => h it (by simp [hit]))
      rcases hv' : validateDataSource v with _ | d
      · rw [hv'] at hv; simp at hv
      · rcases hvs' : validateDataSources vs with _ | ds
        · rw [hvs'] at hvs; simp at hvs
        · simp [hv', hvs']

/-- The pydantic validation of a raw record succeeds exactly on the
conforming shape. -/
theorem validateRecord_isSome_iff (o : PyObj) :
    (validateRecord o).isSome = true ↔ conformsLLMAnalysis o := by
  constructor
  · intro h
    unfold validateRecord at h
    split at h
    · next a items ha hd =>
      rcases hds : validateDataSources items with _ | ds <;> rw [hds] at h
      · simp at h
      · refine ⟨⟨a, ha⟩,
          ⟨items, hd, (validateDataSources_isSome_iff items).mp (by simp [hds])⟩, ?_⟩
        rcases hc : objGet o "original_search_query_context" with _ | c
        · exact Or.inl rfl
        · rw [hc] at h
          cases c <;> simp at h
          case str s => exact Or.inr ⟨s, rfl⟩
    · simp at h
  · rintro ⟨⟨a, ha⟩, ⟨items, hd, hall⟩, hctx⟩
    have hds := (validateDataSources_isSome_iff items).mpr hall
    rcases hds' : validateDataSources items with _ | ds
    · rw [hds'] at hds; simp at hds
    · rcases hctx with hc | ⟨c, hc⟩ <;> simp [validateRecord, ha, hd, hds', hc]

/-! ## Claim C9 — extraction repair round-trip -/

/-- C9: on the bare object sequence `\x7b"a":1\x7d,\x7b"a":2\x7d` the
extractor selects the object-bounded span (here the whole cleaned text), the
first parse fails with extra data, the bracket-wrapped retry parses, and the
result is exactly the two records in order. -/
theorem c9_extraction_repair_roundtrip :
    selectSpan (pyStripChars (cleanChars c9Input.data)) = some c9Input.data ∧
    pyLoads c9Input.data = .error () ∧
    pyLoads ('[' :: (c9Input.data ++ [']'])) =
      .ok (.arr [.obj [("a", .num 1)], .obj [("a", .num 2)]]) ∧
    structure_text_to_json_list c9Input = [[("a", .num 1)], [("a", .num 2)]] :=
  ⟨rfl, rfl, rfl, rfl⟩

/-! ## Claim C10 — the cleaning step reaches inside string values -/

set_option maxRecDepth 4000

/-- C10: cleaning the whole raw output is the extractor's first step (so
pre-cleaning the input changes nothing), and on a concrete record whose
`answer` string value contains a newline and an em dash the returned field
value is `"abc"` — which is not a substring of the raw output, both offending
characters having been deleted from inside the JSON string value. -/
theorem c10_cleaning_alters_field_values :
    (∀ text : String,
      structure_text_to_json_list
          (clean_string_except_letters_digits_spaces_punctuation text) =
        structure_text_to_json_list text) ∧
    structure_text_to_json_list c10Input = [c10Record] ∧
    objGet c10Record "answer" = some (.str "abc") ∧
    '\n' ∈ c10Input.data ∧ '—' ∈ c10Input.data ∧
    ¬ ("abc".data <:+: c10Input.data) := by
  refine ⟨fun text => ?_, rfl, rfl, by decide, by decide, by decide⟩
  unfold structure_text_to_json_list
  rw [show (clean_string_except_letters_digits_spaces_punctuation text).data
        = cleanChars text.data from rfl, cleanChars_idem]

/-! ## Claim C8 — the extractor does not enforce the record schema -/

/-- C8, counterexample: `extract_records` on a parseable object with neither
`answer` nor `data` returns that record rather than dropping it — the claim's
"any parsed record that does not minimally contain an `answer` field and a
`data` field … is dropped from its returned sequence" fails on this input. -/
theorem c8_no_schema_drop_in_extractor :
    structure_text_to_json_list c8Input = [[("x", .num 1)]] ∧
    ∃ o ∈ structure_text_to_json_list c8Input,
      objGet o "answer" = none ∧ objGet o "data" = none := by
  refine ⟨rfl, [("x", .num 1)], ?_, rfl, rfl⟩
  show _ ∈ structure_text_to_json_list c8Input
  rw [show structure_text_to_json_list c8Input = [[("x", .num 1)]] from rfl]
  simp

/-- C8, amended: the extractor never throws (it is total and every failure
yields the empty sequence), but the answer/data schema check lives in the
decision step's validation, not in the extractor: validation succeeds exactly
on conforming records, the decision step's normalization is an
order-preserving filter by that validation, and the concrete nonconforming
record above is returned by the extractor and then dropped by the
normalization. -/
theorem c8_validation_happens_at_decision :
    (∀ o : PyObj, (validateRecord o).isSome = true ↔ conformsLLMAnalysis o) ∧
    (∀ recs : List PyObj, normalizeQaLoop recs = recs.filterMap validateRecord) ∧
    structure_text_to_json_list c8Input = [[("x", .num 1)]] ∧
    normalizeQaLoop (structure_text_to_json_list c8Input) = [] :=
  ⟨validateRecord_isSome_iff, normalizeQaLoop_eq_filterMap, rfl, rfl⟩

/-! ## Claim C1 — the decision rule -/

/-- The meaningful check of `decide_next_step`, over the validated records,
characterized against the raw `qa_results`. -/
theorem normalizeQaLoop_any_iff (l : List PyObj) :
    ((normalizeQaLoop l).any
      (fun qa => pyStrip qa.answer != "" &&
        qa.data.any (fun ds => pyStrip ds.url != "")) = true) ↔
    ∃ o ∈ l, ∃ a, validateRecord o = some a ∧
      pyStrip a.answer ≠ "" ∧ ∃ d ∈ a.data, pyStrip d.url ≠ "" := by
  rw [normalizeQaLoop_eq_filterMap]
  simp only [List.any_eq_true, List.mem_filterMap, Bool.and_eq_true, bne_iff_ne, ne_eq]
  constructor
  · rintro ⟨qa, ⟨o, ho, hv⟩, ha, d, hd, hu⟩
    exact ⟨o, ho, qa, hv, ha, d, hd, hu⟩
  · rintro ⟨o, ho, qa, hv, ha, d, hd, hu⟩
    exact ⟨qa, ⟨o, ho, hv⟩, ha, d, hd, hu⟩

/-- C1, amended: on every state, the decision step returns `CONTINUE` iff
some record in `qa_results` both passes the pydantic validation and is
meaningful (non-blank stripped answer, some data source with non-blank
stripped url); among the remaining states it returns `END` iff
`rephrasing_count ≥ max_retries` and `RETRY` otherwise; and the feedback
field of its state snapshot is set to the fixed rephrasing instruction
exactly on the `RETRY` branch. -/
theorem c1_decision_characterization (maxRetries : Nat) (s : GraphState) :
    ((decide_next_step maxRetries s).1 = .CONTINUE ↔ hasValidMeaningful s) ∧
    ((decide_next_step maxRetries s).1 = .END ↔
      ¬ hasValidMeaningful s ∧ maxRetries ≤ s.rephrasingCount) ∧
    ((decide_next_step maxRetries s).1 = .RETRY ↔
      ¬ hasValidMeaningful s ∧ s.rephrasingCount < maxRetries) ∧
    (decide_next_step maxRetries s).2 =
      (if (decide_next_step maxRetries s).1 = .RETRY then retryFeedbackText
       else s.feedback) := by
  have hb := normalizeQaLoop_any_iff s.qaResults
  unfold hasValidMeaningful
  rcases hB : (normalizeQaLoop s.qaResults).any
      (fun qa => pyStrip qa.answer != "" &&
        qa.data.any (fun ds => pyStrip ds.url != "")) with _ | _
  · rw [hB] at hb
    by_cases hle : maxRetries ≤ s.rephrasingCount
    · simp [decide_next_step, hB, hle, hb.symm]
    · simp [decide_next_step, hB, hle, hb.symm]
      omega
  · rw [hB] at hb
    simp [decide_next_step, hB, hb.symm, hb.mp rfl]

/-- C1, counterexample: a record that is meaningful in the claim's own words
(answer "x", one data entry with url "u") but whose data entry lacks `title`
and `fragment` fails validation, so with the budget exhausted the decision
step returns `END` where the claim requires `CONTINUE`.  (Such states are
reachable: the search node appends extractor output without validating it.) -/
theorem c1_meaningful_but_invalid_record_not_continued :
    specMeaningfulRecord c1BadRecord ∧
    c1BadRecord ∈ c1BadState.qaResults ∧
    (decide_next_step 1 c1BadState).1 = .END := by
  refine ⟨⟨⟨"x", rfl, by decide⟩, ?_⟩, ?_, rfl⟩
  · refine ⟨[.obj [("url", .str "u")]], rfl, .obj [("url", .str "u")], by simp, ?_⟩
    exact ⟨[("url", .str "u")], rfl, "u", rfl, by decide⟩
  · show c1BadRecord ∈ [c1BadRecord]
    simp

/-! ## Claim C7 — a run can abort with a raw exception -/

/-- C7: in the fixed environment `envC7` the run reaches synthesis with one
valid meaningful record and one record whose `data` the extractor flattened
to a single string; iterating that string's `.get`-less elements raises, the
exception escapes `generate_final_answer_node` and `run`, and the run
terminates with no `final_answer` at all — contradicting the claim that every
run ends with a non-empty `final_answer` and never a raw exception. -/
theorem c7_synthesis_crash_on_flattened_data :
    runPipeline envC7 1 "q" = .error () := rfl

theorem searchLoop_extends (env : Env) (oq : String) :
    ∀ (qs : List String) (acc : List PyObj), acc <+: searchLoop env oq qs acc := by
  intro qs
  induction qs with
  | nil => intro acc; simp [searchLoop]
  | cons q qs ih =>
    intro acc
    cases h : env.searchWeb q with
    | error e => simpa only [searchLoop, h] using ih acc
    | ok docs =>
      cases docs with
      | nil => simpa only [searchLoop, h] using ih acc
      | cons d ds =>
        cases hrecs : structure_text_to_json_list
            (env.respondAnalyze oq (processedSearchResults env q (d :: ds))) with
        | nil => simpa only [searchLoop, h, hrecs] using ih acc
        | cons r rs =>
          have step := (List.prefix_append acc
              ((r :: rs).map
                (fun rr => objInsert rr "original_search_query_context" (PyJson.str q)))).trans
            (ih (acc ++ (r :: rs).map
                (fun rr => objInsert rr "original_search_query_context" (PyJson.str q))))
          simpa only [searchLoop, h, hrecs] using step

theorem search_node_extends (env : Env) (s : GraphState) :
    s.qaResults <+: (search_and_analyze_per_query_node env s).qaResults := by
  unfold search_and_analyze_per_query_node
  cases hq : s.searchQueries with
  | nil => exact List.prefix_refl _
  | cons q qs => exact searchLoop_extends env s.originalQuery (q :: qs) s.qaResults

theorem gen_node_qa (env : Env) (s : GraphState) :
    (generate_search_queries_node env s).qaResults = s.qaResults := rfl

theorem gen_node_count (env : Env) (s : GraphState) :
    (generate_search_queries_node env s).rephrasingCount = s.rephrasingCount + 1 := rfl

theorem search_node_count (env : Env) (s : GraphState) :
    (search_and_analyze_per_query_node env s).rephrasingCount = s.rephrasingCount := by
  unfold search_and_analyze_per_query_node
  cases hq : s.searchQueries <;> rfl

theorem decide_retry_lt (maxRetries : Nat) (s : GraphState) :
    (decide_next_step maxRetries s).1 = .RETRY → s.rephrasingCount < maxRetries := by
  unfold decide_next_step
  by_cases hm : (normalizeQaLoop s.qaResults).any
      (fun qa => pyStrip qa.answer != "" &&
        qa.data.any (fun ds => pyStrip ds.url != "")) = true
  · simp [hm]
  · by_cases hle : maxRetries ≤ s.rephrasingCount <;> simp [hm, hle]
    omega

theorem loopToDecision_qa_mono (env : Env) (maxRetries : Nat) :
    ∀ (fuel : Nat) (s s' : GraphState) (r : Route),
      loopToDecision env maxRetries fuel s = some (s', r) →
      s.qaResults <+: s'.qaResults := by
  intro fuel
  induction fuel with
  | zero => intro s s' r h; simp [loopToDecision] at h
  | succ n ih =>
    intro s s' r h
    rw [loopToDecision] at h
    have hpre : s.qaResults <+:
        (search_and_analyze_per_query_node env (generate_search_queries_node env s)).qaResults := by
      rw [show s.qaResults = (generate_search_queries_node env s).qaResults from rfl]
      exact search_node_extends env _
    cases hd : (decide_next_step maxRetries
        (search_and_analyze_per_query_node env (generate_search_queries_node env s))).1 with
    | RETRY =>
      rw [hd] at h
      exact hpre.trans (ih _ s' r h)
    | CONTINUE =>
      rw [hd] at h
      simp at h
      obtain ⟨rfl, rfl⟩ := h
      exact hpre
    | END =>
      rw [hd] at h
      simp at h
      obtain ⟨rfl, rfl⟩ := h
      exact hpre

theorem loopToDecision_count_le (env : Env) (maxRetries : Nat) :
    ∀ (fuel : Nat) (s s' : GraphState) (r : Route),
      loopToDecision env maxRetries fuel s = some (s', r) →
      s'.rephrasingCount ≤ max (s.rephrasingCount + 1) maxRetries := by
  intro fuel
  induction fuel with
  | zero => intro s s' r h; simp [loopToDecision] at h
  | succ n ih =>
    intro s s' r h
    rw [loopToDecision] at h
    have hc2 : (search_and_analyze_per_query_node env
        (generate_search_queries_node env s)).rephrasingCount = s.rephrasingCount + 1 := by
      rw [search_node_count, gen_node_count]
    cases hd : (decide_next_step maxRetries
        (search_and_analyze_per_query_node env (generate_search_queries_node env s))).1 with
    | RETRY =>
      rw [hd] at h
      have hlt := decide_retry_lt _ _ hd
      rw [hc2] at hlt
      have := ih _ s' r h
      rw [hc2] at this
      have hmax : max (s.rephrasingCount + 1 + 1) maxRetries = maxRetries :=
        Nat.max_eq_right (by omega)
      rw [hmax] at this
      exact this.trans (Nat.le_max_right _ _)
    | CONTINUE =>
      rw [hd] at h
      simp at h
      obtain ⟨rfl, rfl⟩ := h
      rw [hc2]
      exact Nat.le_max_left _ _
    | END =>
      rw [hd] at h
      simp at h
      obtain ⟨rfl, rfl⟩ := h
      rw [hc2]
      exact Nat.le_max_left _ _

theorem loopToDecision_isSome (env : Env) (maxRetries : Nat) :
    ∀ (fuel : Nat) (s : GraphState),
      maxRetries ≤ s.rephrasingCount + fuel → 1 ≤ fuel →
      (loopToDecision env maxRetries fuel s).isSome = true := by
  intro fuel
  induction fuel with
  | zero => intro s h h1; omega
  | succ n ih =>
    intro s h _
    rw [loopToDecision]
    have hc2 : (search_and_analyze_per_query_node env
        (generate_search_queries_node env s)).rephrasingCount = s.rephrasingCount + 1 := by
      rw [search_node_count, gen_node_count]
    cases hd : (decide_next_step maxRetries
        (search_and_analyze_per_query_node env (generate_search_queries_node env s))).1 with
    | RETRY =>
      have hlt := decide_retry_lt _ _ hd
      rw [hc2] at hlt
      exact ih _ (by omega) (by omega)
    | CONTINUE => simp
    | END => simp

/-- The synthesis node never changes `qa_results` (its only write is
`final_answer`). -/
theorem final_node_preserves_qa (env : Env) (s s' : GraphState)
    (h : generate_final_answer_node env s = .ok s') : s'.qaResults = s.qaResults := by
  unfold generate_final_answer_node at h
  cases hq : s.qaResults with
  | nil =>
    rw [hq] at h
    simp at h
    subst h
    rfl
  | cons o os =>
    rw [hq] at h
    cases hfmt : formatEvidenceLoop (o :: os) 1 "" with
    | error e => rw [hfmt] at h; simp at h
    | ok p =>
      rw [hfmt] at h
      obtain ⟨n, formatted⟩ := p
      by_cases hblank : pyStrip formatted = ""
      · simp [hblank] at h
        subst h
        rfl
      · simp [hblank] at h
        subst h
        rfl

/-! ## Claim C2 — `qa_results` is append-only across the run -/

/-- C2: every state transition of the running graph preserves the existing
`qa_results` sequence as a prefix — the query-generation node and the
synthesis node leave it untouched, the search node only appends, and along
any number of retry rounds the starting sequence remains a prefix (so its
length never decreases).  The routing function performs no state write in the
running graph (its snapshot is discarded), so no transition removes or
reorders records. -/
theorem c2_qa_results_append_only :
    (∀ (env : Env) (s : GraphState),
      (generate_search_queries_node env s).qaResults = s.qaResults) ∧
    (∀ (env : Env) (s : GraphState),
      s.qaResults <+: (search_and_analyze_per_query_node env s).qaResults) ∧
    (∀ (env : Env) (s s' : GraphState),
      generate_final_answer_node env s = .ok s' → s'.qaResults = s.qaResults) ∧
    (∀ (env : Env) (maxRetries fuel : Nat) (s s' : GraphState) (r : Route),
      loopToDecision env maxRetries fuel s = some (s', r) →
      s.qaResults <+: s'.qaResults ∧ s.qaResults.length ≤ s'.qaResults.length) :=
  ⟨gen_node_qa, search_node_extends, final_node_preserves_qa,
   fun env maxRetries fuel s s' r h =>
     ⟨loopToDecision_qa_mono env maxRetries fuel s s' r h,
      (loopToDecision_qa_mono env maxRetries fuel s s' r h).length_le⟩⟩

/-- Witness for C2 at a concrete run: one no-evidence round under a raising
searcher. -/
theorem c2_witness :
    (generate_final_answer_node envTriv (initialState "q") =
      .ok { initialState "q" with
            finalAnswer := "Не удалось сгенерировать ответ на основе найденной информации." }) ∧
    ({ initialState "q" with
       finalAnswer := "Не удалось сгенерировать ответ на основе найденной информации." } :
        GraphState).qaResults = (initialState "q").qaResults ∧
    loopToDecision envTriv 0 1 (initialState "q") =
      some (⟨"q", ["q1"], [], "", 1, ""⟩, .END) ∧
    ((initialState "q").qaResults <+: ([] : List PyObj) ∧
      (initialState "q").qaResults.length ≤ ([] : List PyObj).length) :=
  ⟨rfl, c2_qa_results_append_only.2.2.1 envTriv _ _ rfl, rfl,
   c2_qa_results_append_only.2.2.2 envTriv 0 1 (initialState "q")
     ⟨"q", ["q1"], [], "", 1, ""⟩ Route.END rfl⟩

/-! ## Claim C3 — the retry budget -/

/-- C3, amended: the query-generation node increments `rephrasing_count` by
exactly one, `RETRY` is routed only while `rephrasing_count < max_retries`,
and at loop termination `rephrasing_count ≤ max (max_retries, 1)` — the
generation state always runs at least once, so a zero retry budget still ends
with count 1 (the claim's bound `rephrasing_count ≤ max_retries` holds for
every `max_retries ≥ 1`).  The loop always reaches a decision within the fuel
`run` supplies. -/
theorem c3_rephrasing_budget :
    (∀ (env : Env) (s : GraphState),
      (generate_search_queries_node env s).rephrasingCount = s.rephrasingCount + 1) ∧
    (∀ (maxRetries : Nat) (s : GraphState),
      (decide_next_step maxRetries s).1 = .RETRY → s.rephrasingCount < maxRetries) ∧
    (∀ (env : Env) (maxRetries fuel : Nat) (s s' : GraphState) (r : Route),
      loopToDecision env maxRetries fuel s = some (s', r) →
      s'.rephrasingCount ≤ max (s.rephrasingCount + 1) maxRetries) ∧
    (∀ (env : Env) (maxRetries : Nat) (q : String) (s' : GraphState) (r : Route),
      loopToDecision env maxRetries (maxRetries + 1) (initialState q) = some (s', r) →
      s'.rephrasingCount ≤ max maxRetries 1) ∧
    (∀ (env : Env) (maxRetries : Nat) (q : String),
      (loopToDecision env maxRetries (maxRetries + 1) (initialState q)).isSome = true) := by
  refine ⟨gen_node_count, decide_retry_lt, loopToDecision_count_le, ?_, ?_⟩
  · intro env maxRetries q s' r h
    have := loopToDecision_count_le env maxRetries (maxRetries + 1) _ s' r h
    simpa [Nat.max_comm] using this
  · intro env maxRetries q
    exact loopToDecision_isSome env maxRetries (maxRetries + 1) (initialState q)
      (by simp [initialState]) (by omega)

/-- C3, counterexample: with `max_retries = 0` the loop still runs one
generation round, so it terminates with `rephrasing_count = 1 > 0` —
violating the claim's bound `rephrasing_count ≤ max_retries` as stated. -/
theorem c3_zero_budget_exceeded :
    loopToDecision envTriv 0 1 (initialState "q") =
      some (⟨"q", ["q1"], [], "", 1, ""⟩, .END) ∧
    ¬ ((⟨"q", ["q1"], [], "", 1, ""⟩ : GraphState).rephrasingCount ≤ 0) :=
  ⟨rfl, by decide⟩

/-- Witness for C3 at concrete inputs: a fresh state routes to `RETRY` under
budget 1 (so the `RETRY → count < max` hypothesis is satisfiable), and the
concrete one-retry run terminates within budget. -/
theorem c3_witness :
    ((decide_next_step 1 (initialState "q")).1 = .RETRY ∧
      (initialState "q").rephrasingCount < 1) ∧
    (loopToDecision envTriv 1 2 (initialState "q")).isSome = true ∧
    loopToDecision envTriv 1 2 (initialState "q") =
      some (⟨"q", ["q1"], [], "", 1, ""⟩, .END) ∧
    (⟨"q", ["q1"], [], "", 1, ""⟩ : GraphState).rephrasingCount ≤ max 1 1 :=
  ⟨⟨rfl, c3_rephrasing_budget.2.1 1 (initialState "q") rfl⟩,
   c3_rephrasing_budget.2.2.2.2 envTriv 1 "q", rfl,
   c3_rephrasing_budget.2.2.2.1 envTriv 1 "q"
     ⟨"q", ["q1"], [], "", 1, ""⟩ Route.END rfl⟩

/-! ## Claim C5 — the synthesis-time map-reduce policy -/

/-- The token chunks are contiguous: concatenated they are exactly the
encoded text. -/
theorem chunkTokens_flatten (k : Nat) (hk : 0 < k) (l : List Nat) :
    (chunkTokens k l).flatten = l := by
  have key : ∀ (n : Nat) (l : List Nat), l.length ≤ n → (chunkTokens k l).flatten = l := by
    intro n
    induction n with
    | zero =>
      intro l hl
      have : l = [] := List.eq_nil_of_length_eq_zero (Nat.le_zero.mp hl)
      subst this
      rw [chunkTokens]
      simp
    | succ n ih =>
      intro l hl
      rw [chunkTokens]
      split
      · next h =>
        rcases h with rfl | hk0
        · simp
        · omega
      · next h =>
        have hnot : ¬ l = [] := fun hc => h (Or.inl hc)
        have hlen : (l.drop k).length ≤ n := by
          have := List.length_pos.mpr hnot
          simp only [List.length_drop]
          omega
        simp only [List.flatten_cons, ih (l.drop k) hlen]
        exact List.take_append_drop k l
  exact key l.length l le_rfl

/-- Every chunk stays within the per-chunk token budget. -/
theorem chunkTokens_mem_length (k : Nat) (l : List Nat) :
    ∀ c ∈ chunkTokens k l, c.length ≤ k := by
  have key : ∀ (n : Nat) (l : List Nat), l.length ≤ n →
      ∀ c ∈ chunkTokens k l, c.length ≤ k := by
    intro n
    induction n with
    | zero =>
      intro l hl c hc
      have : l = [] := List.eq_nil_of_length_eq_zero (Nat.le_zero.mp hl)
      subst this
      rw [chunkTokens] at hc
      simp at hc
    | succ n ih =>
      intro l hl c hc
      rw [chunkTokens] at hc
      split at hc
      · simp at hc
      · next h =>
        have hnot : ¬ l = [] := fun hc2 => h (Or.inl hc2)
        have hk0 : ¬ k = 0 := fun hc2 => h (Or.inr hc2)
        have hlen : (l.drop k).length ≤ n := by
          have := List.length_pos.mpr hnot
          simp only [List.length_drop]
          omega
        rcases List.mem_cons.mp hc with rfl | hmem
        · exact List.length_take_le _ _
        · exact ih (l.drop k) hlen c hmem
  exact key l.length l le_rfl

/-- The map loop collects exactly the non-empty per-chunk summaries, in
order. -/
theorem relevantInfoLoop_eq (P : LLMProcessor) (query : String) :
    ∀ (chunks : List String) (acc : List String),
      relevantInfoLoop P query chunks acc = acc ++ mapSummaries P query chunks := by
  intro chunks
  induction chunks with
  | nil => intro acc; simp [relevantInfoLoop, mapSummaries]
  | cons c cs ih =>
    intro acc
    rw [relevantInfoLoop]
    cases hs : P.respond (chunkProcessorPrompt query c) != "" with
    | false =>
      rw [if_neg (by simp)]
      rw [ih]
      simp [mapSummaries, List.filter_cons, hs]
    | true =>
      rw [if_pos (by simp)]
      rw [ih]
      simp [mapSummaries, List.filter_cons, hs]

/-- C5: the synthesis input is the original text exactly on the single-shot
branch (`tokens(text) + tokens(template with empty variable) <
contextWindow − reservedOutputTokens`, in Python's truncating arithmetic);
otherwise it is the separator-joined concatenation of the non-empty per-chunk
summaries, passed through as-is even when it still exceeds the budget (the
source's final budget check assigns the same text on both branches).  The
chunks are contiguous token slices of the fixed per-chunk budget. -/
theorem c5_synthesis_policy (P : LLMProcessor) (fmt : String → String → String)
    (query searchResults : String) (maxTokensForFinalAnswer : Nat)
    (hk : 0 < P.maxTokensPerChunk) :
    synthesisInput P fmt query searchResults maxTokensForFinalAnswer =
      (if estimateTokens P searchResults + estimateTokens P (fmt query "") <
          P.modelContextWindow - maxTokensForFinalAnswer then searchResults
       else joinSep "\n\n---\n\n" (mapSummaries P query (createChunks P searchResults))) ∧
    (chunkTokens P.maxTokensPerChunk (P.encode searchResults)).flatten =
      P.encode searchResults ∧
    (∀ c ∈ chunkTokens P.maxTokensPerChunk (P.encode searchResults),
      c.length ≤ P.maxTokensPerChunk) := by
  refine ⟨?_, chunkTokens_flatten _ hk _, chunkTokens_mem_length _ _⟩
  unfold synthesisInput
  by_cases hfit : estimateTokens P searchResults + estimateTokens P (fmt query "") <
      P.modelContextWindow - maxTokensForFinalAnswer
  · rw [if_pos hfit, if_pos hfit]
  · rw [if_neg hfit, if_neg hfit]
    unfold combinedSummaries
    rw [relevantInfoLoop_eq]
    by_cases hover : P.modelContextWindow - maxTokensForFinalAnswer ≤
        estimateTokens P (joinSep "\n\n---\n\n" ([] ++ mapSummaries P query (createChunks P searchResults))) +
          estimateTokens P (fmt query "")
    · rw [if_pos hover]
      simp
    · rw [if_neg hover]
      simp

/-- Witness for C5 at a concrete processor, template, query and text. -/
theorem c5_witness :
    0 < c5Proc.maxTokensPerChunk ∧
    (synthesisInput c5Proc c5Fmt "q" "text" 10 =
      (if estimateTokens c5Proc "text" + estimateTokens c5Proc (c5Fmt "q" "") <
          c5Proc.modelContextWindow - 10 then "text"
       else joinSep "\n\n---\n\n" (mapSummaries c5Proc "q" (createChunks c5Proc "text"))) ∧
    (chunkTokens c5Proc.maxTokensPerChunk (c5Proc.encode "text")).flatten =
      c5Proc.encode "text" ∧
    (∀ c ∈ chunkTokens c5Proc.maxTokensPerChunk (c5Proc.encode "text"),
      c.length ≤ c5Proc.maxTokensPerChunk)) :=
  ⟨by decide, c5_synthesis_policy c5Proc c5Fmt "q" "text" 10 (by decide)⟩

/-! ## Claim C6 — per-document compression before extraction -/

/-- The compression loop acts elementwise. -/
theorem processDocsLoop_eq (env : Env) (q : String) :
    ∀ (ds : List Doc) (acc : List Doc),
      processDocsLoop env q ds acc = acc ++ ds.map (fun d =>
        if estimateTokens env.proc d.content > env.contentTokenThreshold then
          { d with content := env.respondCompress q d.content }
        else d) := by
  intro ds
  induction ds with
  | nil => intro acc; simp [processDocsLoop]
  | cons d ds ih =>
    intro acc
    rw [processDocsLoop]
    by_cases hc : estimateTokens env.proc d.content > env.contentTokenThreshold
    · rw [if_pos hc, ih, List.map_cons, if_pos hc]
      simp
    · rw [if_neg hc, ih, List.map_cons, if_neg hc]
      simp

/-- Zipping a list with its image pairs each element with its image. -/
theorem zip_self_map {α β : Type} (f : α → β) :
    ∀ l : List α, l.zip (l.map f) = l.map (fun a => (a, f a)) := by
  intro l
  induction l with
  | nil => rfl
  | cons a l ih => simp [ih]

/-- C6: the document list rendered into the extraction prompt (the search
node passes `processedSearchResults` to the analyzer call) is the original
list elementwise: a document whose estimated token count exceeds the
threshold has its `content` replaced by the compression call's output — the
oversized original is never forwarded — and a document at or below the
threshold passes through unchanged. -/
theorem c6_per_document_compression (env : Env) (q : String) (docs : List Doc) :
    (processedSearchResults env q docs).length = docs.length ∧
    ∀ p ∈ docs.zip (processedSearchResults env q docs),
      (env.contentTokenThreshold < estimateTokens env.proc p.1.content →
        p.2 = { p.1 with content := env.respondCompress q p.1.content }) ∧
      (estimateTokens env.proc p.1.content ≤ env.contentTokenThreshold → p.2 = p.1) := by
  have he : processedSearchResults env q docs = docs.map (fun d =>
      if estimateTokens env.proc d.content > env.contentTokenThreshold then
        { d with content := env.respondCompress q d.content }
      else d) := by
    unfold processedSearchResults
    rw [processDocsLoop_eq]
    simp
  constructor
  · rw [he, List.length_map]
  · intro p hp
    rw [he] at hp
    rw [zip_self_map] at hp
    obtain ⟨d, hd, rfl⟩ := List.mem_map.mp hp
    refine ⟨fun hgt => ?_, fun hle => ?_⟩
    · show (if estimateTokens env.proc d.content > env.contentTokenThreshold then
          { d with content := env.respondCompress q d.content } else d) =
        { d with content := env.respondCompress q d.content }
      exact if_pos hgt
    · show (if estimateTokens env.proc d.content > env.contentTokenThreshold then
          { d with content := env.respondCompress q d.content } else d) = d
      have hle2 : estimateTokens env.proc d.content ≤ env.contentTokenThreshold := hle
      exact if_neg (by omega)

/-- Witness for C6: one document above and one below the threshold, in a
concrete environment. -/
theorem c6_witness :
    ((⟨"t1", "u1", "abc"⟩, (⟨"t1", "u1", "Z"⟩ : Doc)) ∈
      c6Docs.zip (processedSearchResults envC6 "q" c6Docs) ∧
     envC6.contentTokenThreshold < estimateTokens envC6.proc "abc" ∧
     (⟨"t1", "u1", "Z"⟩ : Doc) =
       { (⟨"t1", "u1", "abc"⟩ : Doc) with content := envC6.respondCompress "q" "abc" }) ∧
    ((⟨"t2", "u2", "a"⟩, (⟨"t2", "u2", "a"⟩ : Doc)) ∈
      c6Docs.zip (processedSearchResults envC6 "q" c6Docs) ∧
     estimateTokens envC6.proc "a" ≤ envC6.contentTokenThreshold ∧
     (⟨"t2", "u2", "a"⟩ : Doc) = (⟨"t2", "u2", "a"⟩ : Doc)) ∧
    (processedSearchResults envC6 "q" c6Docs).length = c6Docs.length :=
  ⟨⟨by decide, by decide,
    ((c6_per_document_compression envC6 "q" c6Docs).2
      (⟨"t1", "u1", "abc"⟩, ⟨"t1", "u1", "Z"⟩) (by decide)).1 (by decide)⟩,
   ⟨by decide, by decide,
    ((c6_per_document_compression envC6 "q" c6Docs).2
      (⟨"t2", "u2", "a"⟩, ⟨"t2", "u2", "a"⟩) (by decide)).2 (by decide)⟩,
   (c6_per_document_compression envC6 "q" c6Docs).1⟩

/-! ## Claim C4 — the result aggregator -/

/-- The source's accumulate-with-seen-set loop over one provider list equals
the specification-side dedup walk. -/
theorem addAll_eq (items : List PyObj) : ∀ (all : List PyObj) (seen : List PyJson),
    addAllResults items (all, seen) =
      (all ++ (specDedupAux seen items).1, (specDedupAux seen items).2) := by
  induction items with
  | nil => intro all seen; simp [addAllResults, specDedupAux]
  | cons item rest ih =>
    intro all seen
    rw [show addAllResults (item :: rest) (all, seen)
        = addAllResults rest (addIfUnique item (all, seen)) from rfl]
    cases hu : objGet item "url" with
    | none =>
      simp only [addIfUnique, hu]
      rw [ih, specDedupAux, hu]
    | some u =>
      by_cases hcond : (pyTruthy u && !(seen.any (pyEq u))) = true
      · simp only [addIfUnique, hu, hcond, if_true]
        rw [ih]
        rw [specDedupAux, hu]
        simp only [hcond, if_true]
        simp
      · simp only [addIfUnique, hu, hcond, if_false]
        rw [ih]
        rw [specDedupAux, hu]
        simp [hcond]

/-- Deduplication composes over list concatenation, threading the seen
set. -/
theorem dedupAux_append (xs ys : List PyObj) : ∀ (seen : List PyJson),
    specDedupAux seen (xs ++ ys) =
      ((specDedupAux seen xs).1 ++ (specDedupAux (specDedupAux seen xs).2 ys).1,
       (specDedupAux (specDedupAux seen xs).2 ys).2) := by
  induction xs with
  | nil => intro seen; simp [specDedupAux]
  | cons item rest ih =>
    intro seen
    rw [List.cons_append, specDedupAux]
    cases hu : objGet item "url" with
    | none =>
      rw [ih, specDedupAux, hu]
    | some u =>
      by_cases hcond : (pyTruthy u && !(seen.any (pyEq u))) = true
      · simp only [hcond, if_true]
        rw [ih, specDedupAux, hu]
        simp [hcond]
      · simp only [hcond, if_false]
        rw [ih, specDedupAux, hu]
        simp [hcond]
        exact ih seen

/-- `CombinedWebSearcher.search` computes exactly the specification-side
aggregate: flatten the successful providers' lists in provider order, then
keep the first occurrence of each truthy URL. -/
theorem combinedSearch_eq_specAggregate (providers : List (Except Unit (List PyObj))) :
    combinedSearch providers = specAggregate providers := by
  have key : ∀ (ps : List (Except Unit (List PyObj))) (all : List PyObj) (seen : List PyJson),
      ps.foldl (fun st p =>
        match p with
        | .ok items => addAllResults items st
        | .error _ => st) (all, seen) =
      (all ++ (specDedupAux seen ((ps.map okResults).flatten)).1,
       (specDedupAux seen ((ps.map okResults).flatten)).2) := by
    intro ps
    induction ps with
    | nil => intro all seen; simp [specDedupAux]
    | cons p ps ih =>
      intro all seen
      cases p with
      | error e =>
        rw [List.foldl_cons]
        rw [ih]
        simp [okResults]
      | ok items =>
        rw [List.foldl_cons]
        show ps.foldl _ (addAllResults items (all, seen)) = _
        rw [addAll_eq, ih]
        simp only [List.map_cons, List.flatten_cons, okResults]
        rw [dedupAux_append]
        simp
  unfold combinedSearch specAggregate
  rw [key]
  simp

/-- Unfolding `countUrl` over a cons. -/
theorem countUrl_cons (item : PyObj) (items : List PyObj) (u : PyJson) :
    countUrl (item :: items) u =
      (if (match objGet item "url" with
           | some v => pyEq v u
           | none => false) = true then 1 else 0) + countUrl items u := by
  unfold countUrl
  rw [List.filter_cons]
  split <;> simp <;> omega

/-- After deduplication each URL value occurs at most once (and not at all if
it was already seen). -/
theorem dedupAux_countUrl (u : PyJson) : ∀ (items : List PyObj) (seen : List PyJson),
    (seen.any (pyEq u) = true → countUrl (specDedupAux seen items).1 u = 0) ∧
    countUrl (specDedupAux seen items).1 u ≤ 1 := by
  intro items
  induction items with
  | nil => intro seen; simp [specDedupAux, countUrl]
  | cons item rest ih =>
    intro seen
    rw [specDedupAux]
    cases hu : objGet item "url" with
    | none => exact ih seen
    | some v =>
      by_cases hcond : (pyTruthy v && !(seen.any (pyEq v))) = true
      · simp only [hcond, if_true]
        have hnot : seen.any (pyEq v) = false := by
          cases hb : seen.any (pyEq v)
          · rfl
          · rw [hb] at hcond; simp at hcond
        have hcount := countUrl_cons item (specDedupAux (seen ++ [v]) rest).1 u
        rw [hu] at hcount
        by_cases hvu : pyEq v u = true
        · have hveq : v = u := (pyEq_eq v u).mp hvu
          have hseen : (seen ++ [v]).any (pyEq u) = true := by
            have hr : pyEq u v = true := (pyEq_eq u v).mpr hveq.symm
            simp [List.any_append, hr]
          have h0 := (ih (seen ++ [v])).1 hseen
          constructor
          · intro habs
            exfalso
            rw [← hveq] at habs
            rw [habs] at hnot
            simp at hnot
          · rw [hcount, h0]
            simp [hvu]
        · simp [hvu] at hcount
          constructor
          · intro habs
            rw [hcount]
            have hseen2 : (seen ++ [v]).any (pyEq u) = true := by
              simp [List.any_append, habs]
            exact (ih (seen ++ [v])).1 hseen2
          · rw [hcount]
            exact (ih (seen ++ [v])).2
      · simp only [hcond, if_false]
        exact ih seen

/-- Deduplication is a projection: re-running it over its own output changes
nothing. -/
theorem dedupAux_fixed : ∀ (items : List PyObj) (seen : List PyJson),
    (specDedupAux seen (specDedupAux seen items).1).1 = (specDedupAux seen items).1 := by
  intro items
  induction items with
  | nil => intro seen; simp [specDedupAux]
  | cons item rest ih =>
    intro seen
    rw [specDedupAux]
    cases hu : objGet item "url" with
    | none => exact ih seen
    | some v =>
      by_cases hcond : (pyTruthy v && !(seen.any (pyEq v))) = true
      · simp only [hcond, if_true]
        rw [specDedupAux, hu]
        simp only [hcond, if_true]
        rw [ih (seen ++ [v])]
      · simp only [hcond, if_false]
        exact ih seen

/-- C4, amended: the aggregator merges the per-provider lists preserving
provider order and keeps the first occurrence of each distinct *truthy*
(non-empty, non-missing) `url`, by exact value match; results whose `url` is
missing or empty are dropped altogether; each URL value appears at most once
in the output; a raising provider contributes nothing without aborting the
call; and aggregation is idempotent on URL identity. -/
theorem c4_aggregation_characterized :
    (∀ providers, combinedSearch providers = specAggregate providers) ∧
    (∀ providers u, countUrl (combinedSearch providers) u ≤ 1) ∧
    (∀ ps1 ps2, combinedSearch (ps1 ++ Except.error () :: ps2) =
      combinedSearch (ps1 ++ ps2)) ∧
    (∀ providers, combinedSearch [Except.ok (combinedSearch providers)] =
      combinedSearch providers) := by
  refine ⟨combinedSearch_eq_specAggregate, ?_, ?_, ?_⟩
  · intro providers u
    rw [combinedSearch_eq_specAggregate]
    exact (dedupAux_countUrl u _ []).2
  · intro ps1 ps2
    rw [combinedSearch_eq_specAggregate, combinedSearch_eq_specAggregate]
    unfold specAggregate
    simp [okResults]
  · intro providers
    rw [combinedSearch_eq_specAggregate, combinedSearch_eq_specAggregate]
    unfold specAggregate
    simp only [List.map_cons, List.map_nil, List.flatten_cons, List.flatten_nil,
      List.append_nil, okResults]
    exact dedupAux_fixed _ []

/-- C4, counterexample: a provider result whose `url` is present but empty is
not kept at all — the aggregated list keeps the empty-url item zero times,
not "exactly once" as the claim states for every distinct url. -/
theorem c4_empty_url_dropped :
    (∃ item ∈ (([Except.ok [c4EmptyUrlItem]].map okResults).flatten),
      objGet item "url" = some (.str "")) ∧
    combinedSearch [Except.ok [c4EmptyUrlItem]] = [] ∧
    countUrl (([Except.ok [c4EmptyUrlItem]].map okResults).flatten) (.str "") = 1 ∧
    countUrl (combinedSearch [Except.ok [c4EmptyUrlItem]]) (.str "") = 0 := by
  refine ⟨⟨c4EmptyUrlItem, ?_, rfl⟩, rfl, rfl, rfl⟩
  simp [okResults]
